import Mathlib

/-
Verification of the PocketLawyer RAG core against its specification.

Python strings are modelled as `List Char` (one entry per code point, which is
exactly what Python's `len`/slicing count).  Character classes (`\s`, `\w`,
`\d`, `str.lower`) are modelled at the ASCII level, which covers every string
the claims are about.  Python floats are modelled as exact rationals.

Sources embedded below:
  src/data_ingestion/document_processor.py  (DocumentProcessor)
  src/rag_system/retriever.py               (LegalRetriever)
  src/rag_system/generator.py               (LegalResponseGenerator)
  config.py                                  (Config)
-/

/-- The apostrophe character. -/
def apos : Char := Char.ofNat 39

/-- ASCII model of Python's whitespace class `\s`
(space, tab, newline, carriage return, vertical tab, form feed). -/
def isSpacePy (c : Char) : Bool :=
  c = ' ' || c = Char.ofNat 9 || c = Char.ofNat 10 || c = Char.ofNat 13 ||
  c = Char.ofNat 11 || c = Char.ofNat 12

/-- ASCII model of Python's word-character class `\w`. -/
def isWordCharPy (c : Char) : Bool := c.isAlphanum || c = '_'

/-- Python `str.strip()`: remove leading and trailing whitespace. -/
def pyStrip (l : List Char) : List Char :=
  ((l.dropWhile isSpacePy).reverse.dropWhile isSpacePy).reverse

/-- Python `text.split('. ')`: split on the exact two-character separator,
leftmost non-overlapping occurrences (`_create_chunks`, line 140). -/
def splitDotSpace : List Char → List (List Char)
  | [] => [[]]
  | '.' :: ' ' :: rest => [] :: splitDotSpace rest
  | c :: rest =>
    match splitDotSpace rest with
    | [] => [[c]]
    | w :: ws => (c :: w) :: ws

/-- One pass of `re.sub(r'\s+', ' ', text)`: the flag records whether the
previous character was whitespace (so a run collapses to one space). -/
def collapseWsAux : Bool → List Char → List Char
  | _, [] => []
  | prevWs, c :: cs =>
    if isSpacePy c then
      if prevWs then collapseWsAux true cs else ' ' :: collapseWsAux true cs
    else c :: collapseWsAux false cs

/-- `re.sub(r'\s+', ' ', text)` (`_clean_text`, line 125). -/
def collapseWs (l : List Char) : List Char := collapseWsAux false l

/-- The punctuation retained by `_clean_text`'s character class
`[^\w\s\.\,\;\:\(\)\-\[\]\"\'\/\&]` (line 128). -/
def keptPunct : List Char :=
  ['.', ',', ';', ':', '(', ')', '-', '[', ']', '"', apos, '/', '&']

/-- A character survives `re.sub(r'[^\w\s\.\,\;\:\(\)\-\[\]\"\'\/\&]', '', text)`. -/
def keepChar (c : Char) : Bool := isWordCharPy c || isSpacePy c || keptPunct.contains c

/-- `text.replace(chr(8377), 'Rs.')` — the rupee-sign normalisation (line 131). -/
def replaceRupee : List Char → List Char
  | [] => []
  | c :: cs => if c = '₹' then 'R' :: 's' :: '.' :: replaceRupee cs else c :: replaceRupee cs

/-- If the regex `--- Page \d+ ---` matches at the head of `l`, the length of
the match.  (`\d+` is greedy and the next literal is a space, so taking the
maximal digit run is exactly the regex semantics.) -/
def pageMarkerLen (l : List Char) : Option Nat :=
  if (("--- Page ").data).isPrefixOf l then
    let rest := l.drop 9
    let ds := rest.takeWhile Char.isDigit
    if ds.length > 0 && ((" ---").data).isPrefixOf (rest.drop ds.length) then
      some (9 + ds.length + 4)
    else none
  else none

/-- Fuelled scan for `re.sub(r'--- Page \d+ ---', '', text)`: leftmost
non-overlapping matches are removed, scanning resumes after each match.
Fuel `l.length` always suffices since each step consumes at least one char. -/
def removeMarkersF : Nat → List Char → List Char
  | 0, l => l
  | _ + 1, [] => []
  | fuel + 1, c :: cs =>
    match pageMarkerLen (c :: cs) with
    | some n => removeMarkersF fuel ((c :: cs).drop n)
    | none => c :: removeMarkersF fuel cs

/-- `re.sub(r'--- Page \d+ ---', '', text)` (`_clean_text`, line 134). -/
def removeMarkers (l : List Char) : List Char := removeMarkersF l.length l

/-- `DocumentProcessor._clean_text` (document_processor.py lines 122-136):
collapse whitespace, drop disallowed characters, normalise the rupee sign,
remove page markers, strip. -/
def cleanText (text : List Char) : List Char :=
  pyStrip (removeMarkers (replaceRupee ((collapseWs text).filter keepChar)))

/-- Python `str.split()` (no argument): split on whitespace runs, no empty
words.  Implemented as a transducer: `wrun acc l` returns the finished words
and the pending word (reversed) after reading `l` starting with pending `acc`. -/
def wrun : List Char → List Char → List (List Char) × List Char
  | acc, [] => ([], acc)
  | acc, c :: cs =>
    if isSpacePy c then
      if acc = [] then wrun [] cs
      else (acc.reverse :: (wrun [] cs).1, (wrun [] cs).2)
    else wrun (c :: acc) cs

/-- Close a pending (reversed) word. -/
def closePend (acc : List Char) : List (List Char) := if acc = [] then [] else [acc.reverse]

/-- Python `str.split()` with no argument. -/
def pyWords (l : List Char) : List (List Char) :=
  (wrun [] l).1 ++ closePend (wrun [] l).2

/-- Python `' '.join(words)`. -/
def joinWords : List (List Char) → List Char
  | [] => []
  | [w] => w
  | w :: ws => w ++ ' ' :: joinWords ws

/-- Python `l[-n:]` for `n ≥ 1`: the last `min n (length l)` elements.
(`Config.CHUNK_OVERLAP = 200`, so `n` is always positive here.) -/
def takeLastN (n : Nat) (l : List α) : List α := l.drop (l.length - n)

/-- One iteration of the sentence loop of `DocumentProcessor._create_chunks`
(document_processor.py lines 144-153).  State: (chunks so far, current chunk). -/
def chunkStep (size overlap : Nat) (st : List (List Char) × List Char) (s : List Char) :
    List (List Char) × List Char :=
  if (st.2 ++ s).length > size ∧ st.2 ≠ [] then
    (st.1 ++ [pyStrip st.2], joinWords (takeLastN overlap (pyWords st.2)) ++ ' ' :: s)
  else
    (st.1, st.2 ++ s ++ ['.', ' '])

/-- `DocumentProcessor._create_chunks` (document_processor.py lines 138-159). -/
def createChunks (size overlap : Nat) (text : List Char) : List (List Char) :=
  let fin := (splitDotSpace text).foldl (chunkStep size overlap) ([], [])
  if pyStrip fin.2 ≠ [] then fin.1 ++ [pyStrip fin.2] else fin.1

/-- `Config.CHUNK_SIZE` (config.py). -/
def CHUNK_SIZE : Nat := 1000

/-- `Config.CHUNK_OVERLAP` (config.py). -/
def CHUNK_OVERLAP : Nat := 200

/-- Python `str.lower()` (ASCII model). -/
def lowerAscii (l : List Char) : List Char := l.map Char.toLower

/-- Constitutional-law keywords (`_identify_legal_domain`, lines 166-167). -/
def constitutionalKeywords : List (List Char) :=
  [("constitution").data, ("fundamental rights").data, ("directive principles").data,
   ("amendment").data, ("article").data, ("schedule").data]

/-- Criminal-law keywords (lines 170-171). -/
def criminalKeywords : List (List Char) :=
  [("criminal").data, ("offence").data, ("punishment").data, ("bail").data, ("arrest").data,
   ("investigation").data, ("charge").data, ("ipc").data, ("bns").data]

/-- Civil-law keywords (lines 174-175). -/
def civilKeywords : List (List Char) :=
  [("civil").data, ("contract").data, ("property").data, ("damages").data, ("injunction").data,
   ("suit").data, ("plaintiff").data, ("defendant").data]

/-- Family-law keywords (lines 178-179). -/
def familyKeywords : List (List Char) :=
  [("marriage").data, ("divorce").data, ("custody").data, ("maintenance").data,
   ("adoption").data, ("succession").data]

/-- Corporate-law keywords (lines 182-183). -/
def corporateKeywords : List (List Char) :=
  [("company").data, ("corporate").data, ("shares").data, ("director").data,
   ("commercial").data, ("business").data]

/-- Python `pat in text` for strings: contiguous-substring test. -/
def isSubstrOf (pat : List Char) : List Char → Bool
  | [] => pat.isEmpty
  | c :: cs => pat.isPrefixOf (c :: cs) || isSubstrOf pat cs

/-- `sum(1 for keyword in keywords if keyword in text_lower)`: the number of
keywords of the set occurring (as substrings) in the lowered text — each
keyword counted at most once. -/
def domainScore (kws : List (List Char)) (textLower : List Char) : Nat :=
  kws.countP (fun kw => isSubstrOf kw textLower)

/-- The `domain_scores` dict of `_identify_legal_domain` (lines 186-192), as an
association list in Python dict insertion order. -/
def domainScores (text : List Char) : List (List Char × Nat) :=
  [(("constitutional").data, domainScore constitutionalKeywords (lowerAscii text)),
   (("criminal").data, domainScore criminalKeywords (lowerAscii text)),
   (("civil").data, domainScore civilKeywords (lowerAscii text)),
   (("family").data, domainScore familyKeywords (lowerAscii text)),
   (("corporate").data, domainScore corporateKeywords (lowerAscii text))]

/-- Python `max(items, key=lambda x: x[1])`: keeps the current maximum unless a
later item's key is strictly greater, so the first of tied items wins. -/
def pyMaxBySnd (x : List Char × Nat) (xs : List (List Char × Nat)) : List Char × Nat :=
  xs.foldl (fun b y => if y.2 > b.2 then y else b) x

/-- `DocumentProcessor._identify_legal_domain` (lines 161-196). -/
def identifyLegalDomain (text : List Char) : List Char :=
  match domainScores text with
  | [] => ("general").data
  | x :: xs =>
    let m := pyMaxBySnd x xs
    if m.2 > 0 then m.1 else ("general").data

/-- Chunk metadata, as built by `DocumentProcessor.process_text_file`
(document_processor.py lines 101-111). -/
structure ChunkMeta where
  source : List Char
  type : List Char
  chunk_id : Nat
  total_chunks : Nat
  domain : List Char
deriving DecidableEq, Repr, Inhabited

/-- A chunk object: `{'content': ..., 'metadata': {...}}`. -/
structure Chunk where
  content : List Char
  metadata : ChunkMeta
deriving DecidableEq, Repr, Inhabited

/-- `DocumentProcessor.process_text_file` (lines 90-120) from the point where
the file's text has been read (the file I/O itself is outside the model):
clean, chunk, then attach metadata with `chunk_id = i` and
`total_chunks = len(text_chunks)` for `i, chunk in enumerate(text_chunks)`. -/
def processTextContent (fullText sourceName : List Char) : List Chunk :=
  let cleaned := cleanText fullText
  let textChunks := createChunks CHUNK_SIZE CHUNK_OVERLAP cleaned
  textChunks.enum.map fun p =>
    { content := p.2,
      metadata := { source := sourceName, type := ("txt").data, chunk_id := p.1,
                    total_chunks := textChunks.length,
                    domain := identifyLegalDomain p.2 } }

/-- A Python exception value (its message). -/
abbrev PyError := List Char

/-- One entry of the list built by `LegalRetriever.retrieve_relevant_docs`
(retriever.py lines 33-38).  Scores are exact rationals modelling the floats. -/
structure RetrievalResult where
  content : List Char
  metadata : ChunkMeta
  similarity_score : ℚ
  rank : Nat
deriving DecidableEq, Repr, Inhabited

/-- The dictionary returned by `VectorStore.similarity_search` (ChromaDB's
`collection.query` shape): one inner list per query. -/
structure QueryResponse where
  documents : List (List (List Char))
  metadatas : List (List ChunkMeta)
  distances : List (List ℚ)
deriving DecidableEq, Repr

/-- The result-formatting loop shared verbatim by `retrieve_relevant_docs`
(retriever.py lines 28-38) and `filter_by_legal_domain` (lines 64-74):
`enumerate(zip(documents[0], metadatas[0], distances[0]))` with
`similarity_score = 1 - distance` and `rank = i + 1`. -/
def formatSearchResults (docs : List (List Char)) (metas : List ChunkMeta)
    (dists : List ℚ) : List RetrievalResult :=
  (docs.zip (metas.zip dists)).enum.map fun p =>
    { content := p.2.1, metadata := p.2.2.1,
      similarity_score := 1 - p.2.2.2, rank := p.1 + 1 }

/-- `LegalRetriever.retrieve_relevant_docs` (lines 15-46) as a function of the
vector-store call's outcome: an exception anywhere in the `try` block is caught
and yields `[]`; `results['documents'][0]` being empty (falsy) also yields `[]`;
missing inner lists raise `IndexError`, likewise caught. -/
def retrieveRelevantDocs (res : Except PyError QueryResponse) : List RetrievalResult :=
  match res with
  | .error _ => []
  | .ok r =>
    match r.documents.head?, r.metadatas.head?, r.distances.head? with
    | some ds, some ms, some dss => if ds = [] then [] else formatSearchResults ds ms dss
    | _, _, _ => []

/-- The `where_filter` computed by `filter_by_legal_domain` (lines 53-60):
both `None` and the empty string are falsy, so they yield no filter. -/
def whereFilterOf (legalDomain : Option (List Char)) : Option (List Char) :=
  match legalDomain with
  | none => none
  | some d => if d = [] then none else some d

/-- `retrieve_relevant_docs` over an abstract vector store `S` mapping
(`n_results`, `where`-filter) to the search outcome for the fixed query:
it searches with no filter (retriever.py line 21). -/
def retrieveWithStore (S : Nat → Option (List Char) → Except PyError QueryResponse)
    (nDocs : Nat) : List RetrievalResult :=
  retrieveRelevantDocs (S nDocs none)

/-- `LegalRetriever.filter_by_legal_domain` (lines 48-82) over the same
abstract vector store: `n_results=10` and the computed `where` filter;
the formatting code is character-for-character the one of
`retrieve_relevant_docs`, hence the shared helper. -/
def filterByLegalDomain (S : Nat → Option (List Char) → Except PyError QueryResponse)
    (legalDomain : Option (List Char)) : List RetrievalResult :=
  retrieveRelevantDocs (S 10 (whereFilterOf legalDomain))

/-- The answer dictionary of `generate_legal_response` (generator.py 44-48). -/
structure GeneratedAnswer where
  response : List Char
  sources : List ChunkMeta
  confidence : ℚ
deriving DecidableEq, Repr

/-- `LegalResponseGenerator._create_context` (generator.py lines 59-67):
top 3 docs, content truncated to 500 chars, blocks joined by blank lines. -/
def createContext (relevantDocs : List RetrievalResult) : List Char :=
  List.intercalate (("\n\n").data)
    ((relevantDocs.take 3).map fun doc =>
      ("From ").data ++ doc.metadata.source ++ (": ").data ++ doc.content.take 500)

/-- The fixed prompt text before the query (generator.py lines 71-73). -/
def promptPart1 : List Char :=
  ("Based on Indian legal documents and constitution, please answer the following legal question:\n\nQuery: ").data

/-- The fixed prompt text between query and context (lines 73-76). -/
def promptPart2 : List Char := ("\n\nLegal Context:\n").data

/-- The fixed prompt text after the context (lines 76-80). -/
def promptPart3 : List Char :=
  ("\n\nPlease provide a clear, accurate response based on Indian law. If the information is insufficient, please mention that additional legal consultation may be required.\n\nResponse:").data

/-- `LegalResponseGenerator._create_legal_prompt` (lines 69-82). -/
def createLegalPrompt (query context : List Char) : List Char :=
  promptPart1 ++ query ++ promptPart2 ++ context ++ promptPart3

/-- Fuelled scan for Python `text.replace(pat, '')` with non-empty `pat`:
leftmost non-overlapping occurrences are removed. -/
def replaceRemoveF (pat : List Char) : Nat → List Char → List Char
  | 0, l => l
  | _ + 1, [] => []
  | fuel + 1, c :: cs =>
    if pat.isPrefixOf (c :: cs) && !pat.isEmpty then
      replaceRemoveF pat fuel ((c :: cs).drop pat.length)
    else c :: replaceRemoveF pat fuel cs

/-- Python `text.replace(pat, '')` for non-empty `pat` (the prompt is never
empty: it starts with a fixed preamble). -/
def pyReplaceRemove (pat text : List Char) : List Char := replaceRemoveF pat text.length text

/-- The fixed message returned when the model pipeline raises
(generator.py line 103). -/
def unableMessage : List Char := ("Unable to generate response with language model.").data

/-- `LegalResponseGenerator._generate_with_model` (lines 84-103) as a function
of the outcome of the pipeline call `self.generator(...)[0]['generated_text']`:
on success the echoed prompt is removed and the result stripped; ANY exception
inside the inner `try` is caught here and yields the fixed `unableMessage` —
it does NOT propagate and does NOT reach the rule-based responder. -/
def generateWithModel (prompt : List Char) (modelOutcome : Except PyError (List Char)) :
    List Char :=
  match modelOutcome with
  | .ok generatedText => pyStrip (pyReplaceRemove prompt generatedText)
  | .error _ => unableMessage

/-- The fixed no-information message of `_generate_rule_based_response`
(lines 106-107). -/
def noInfoMessage : List Char :=
  ("I couldn").data ++ [apos] ++
  ("t find relevant legal information for your query. Please consult with a legal professional for accurate advice.").data

/-- The fixed header of the rule-based response (line 110). -/
def ruleHeader : List Char :=
  ("Based on available legal documents, here").data ++ [apos] ++
  ("s what I found regarding your query:\n\n").data

/-- The fixed educational-use disclaimer (line 115). -/
def disclaimerMessage : List Char :=
  ("Please note: This information is for educational purposes only. For specific legal advice, consult with a qualified legal professional.").data

/-- The numbered blocks of the rule-based response (lines 112-113):
`f"{i+1}. {doc['content'][:300]}...\n\n"` for the top 2 docs. -/
def numberedBlocks (relevantDocs : List RetrievalResult) : List Char :=
  (relevantDocs.take 2).enum.foldl
    (fun acc p =>
      acc ++ (Nat.repr (p.1 + 1)).data ++ (". ").data ++ p.2.content.take 300 ++ ("...\n\n").data)
    []

/-- `LegalResponseGenerator._generate_rule_based_response` (lines 105-118).
The query parameter is accepted but unused, as in the source. -/
def ruleBasedResponse (_query : List Char) (relevantDocs : List RetrievalResult) : List Char :=
  if relevantDocs = [] then noInfoMessage
  else ruleHeader ++ numberedBlocks relevantDocs ++ disclaimerMessage

/-- `LegalResponseGenerator._calculate_confidence` (lines 120-127): `0.0` for
no docs, otherwise the mean of the docs' `similarity_score` values (always
present on results built by the retriever; `doc.get(..., 0)` never defaults). -/
def calculateConfidence (relevantDocs : List RetrievalResult) : ℚ :=
  if relevantDocs = [] then 0
  else
    let scores := relevantDocs.map (fun d => d.similarity_score)
    if scores = [] then 0 else scores.sum / (scores.length : ℚ)

/-- The fixed apology message of the outer `except` handler (line 52). -/
def apologyMessage : List Char :=
  ("I apologize, but I").data ++ [apos] ++
  ("m unable to process your legal query at the moment. Please try again later.").data

/-- The fixed degraded answer of the outer `except` handler (lines 50-56). -/
def apologyAnswer : GeneratedAnswer :=
  { response := apologyMessage, sources := [], confidence := 0 }

/-- The `try`-block body of `generate_legal_response` (lines 32-48), with the
outcome of each step at this call supplied as an `Except` (each step can raise
in Python, e.g. a malformed doc dict raises `KeyError`).  `Except.bind`
short-circuits at the first raised exception, exactly as Python exception
propagation does inside the `try` block.  Steps in evaluation order: context,
prompt, response, the sources list, confidence. -/
def generateBody (ctx prompt resp : Except PyError (List Char))
    (srcs : Except PyError (List ChunkMeta)) (conf : Except PyError ℚ) :
    Except PyError GeneratedAnswer :=
  ctx.bind fun _ =>
    prompt.bind fun _ =>
      resp.bind fun r =>
        srcs.bind fun s =>
          conf.bind fun c => Except.ok { response := r, sources := s, confidence := c }

/-- The outer `try`/`except Exception` of `generate_legal_response`: a raised
exception is caught and converted to the fixed apology answer; the function
always returns a `GeneratedAnswer` (total — nothing propagates). -/
def runGenerate (body : Except PyError GeneratedAnswer) : GeneratedAnswer :=
  match body with
  | .ok a => a
  | .error _ => apologyAnswer

/-- `LegalResponseGenerator.generate_legal_response` (lines 28-57).
`generatorLoaded` models `self.generator` being truthy (the model loaded at
construction); `modelOutcome` is the outcome of the pipeline call inside
`_generate_with_model` (unused on the rule-based path). -/
def generateLegalResponse (generatorLoaded : Bool) (modelOutcome : Except PyError (List Char))
    (query : List Char) (relevantDocs : List RetrievalResult) : GeneratedAnswer :=
  let context := createContext relevantDocs
  let prompt := createLegalPrompt query context
  let response :=
    if generatorLoaded then generateWithModel prompt modelOutcome
    else ruleBasedResponse query relevantDocs
  runGenerate (generateBody (Except.ok context) (Except.ok prompt) (Except.ok response)
    (Except.ok (relevantDocs.map (fun d => d.metadata)))
    (Except.ok (calculateConfidence relevantDocs)))


/-- The result of `max(domain_scores.items(), key=...)` followed by the
zero test, as a function of the five scores in enumeration order.
Definitionally equal to the body of `identifyLegalDomain`. -/
def argmaxDomain (a b c d e : Nat) : List Char :=
  let m1 := if b > a then (("criminal").data, b) else (("constitutional").data, a)
  let m2 := if c > m1.2 then (("civil").data, c) else m1
  let m3 := if d > m2.2 then (("family").data, d) else m2
  let m4 := if e > m3.2 then (("corporate").data, e) else m3
  if m4.2 > 0 then m4.1 else ("general").data

/-- Sample chunk metadata for the concrete witnesses. -/
def sampleMeta : ChunkMeta :=
  { source := ("doc.txt").data, type := ("txt").data, chunk_id := 0,
    total_chunks := 1, domain := ("general").data }

/-- Sample retrieval result with similarity 0.9. -/
def sampleDoc1 : RetrievalResult :=
  { content := ("Some legal content.").data, metadata := sampleMeta,
    similarity_score := 9/10, rank := 1 }

/-- Sample retrieval result with similarity 0.7. -/
def sampleDoc2 : RetrievalResult :=
  { content := ("More content.").data, metadata := sampleMeta,
    similarity_score := 7/10, rank := 2 }

/-- A sample vector store for the C10 witness. -/
def sampleStore : Nat → Option (List Char) → Except PyError QueryResponse :=
  fun _ _ => Except.ok { documents := [[("a").data]], metadatas := [[sampleMeta]],
                         distances := [[1/2]] }

/-- Re-joining the split with `'. '` after every sentence, as the loop body
`current_chunk += sentence + '. '` does. -/
def dotsJoin : List (List Char) → List Char
  | [] => []
  | s :: rest => s ++ '.' :: ' ' :: dotsJoin rest

/-- The string is empty or its last character is whitespace. -/
def endsWs (l : List Char) : Prop := ∀ c, l.getLast? = some c → isSpacePy c = true

/-- Chunk `b` starts with the seed taken from the tail of chunk `a`: its first
`min ov (number of words of a)` words are exactly the last `ov` (or all, if
fewer) words of `a`.  In particular the deliberate overlap carried from `a`
into `b` is at most `ov` words. -/
def overlapSeed (ov : Nat) (a b : List Char) : Prop :=
  (pyWords b).take (min ov (pyWords a).length) =
    (pyWords a).drop ((pyWords a).length - ov)

/-- Invariant of the sentence loop: the finished chunks are pairwise seeded,
and the running buffer extends the seed taken from the last finished chunk. -/
def ChunkInv (ov : Nat) (st : List (List Char) × List Char) : Prop :=
  List.Chain' (overlapSeed ov) st.1 ∧
  ∀ a, st.1.getLast? = some a →
    overlapSeed ov a st.2 ∧
    (min ov (pyWords a).length < (pyWords st.2).length ∨ endsWs st.2)

lemma identifyLegalDomain_eq_argmax (text : List Char) :
    identifyLegalDomain text =
      argmaxDomain (domainScore constitutionalKeywords (lowerAscii text))
        (domainScore criminalKeywords (lowerAscii text))
        (domainScore civilKeywords (lowerAscii text))
        (domainScore familyKeywords (lowerAscii text))
        (domainScore corporateKeywords (lowerAscii text)) := rfl

lemma argmaxDomain_general_iff (a b c d e : Nat) :
    argmaxDomain a b c d e = ("general").data ↔ a = 0 ∧ b = 0 ∧ c = 0 ∧ d = 0 ∧ e = 0 := by
  simp only [argmaxDomain]
  split_ifs <;> (try dsimp only) <;>
    first
      | exact iff_of_true rfl (by omega)
      | exact iff_of_false (by decide) (by omega)

lemma argmaxDomain_con (a b c d e : Nat)
    (h : 0 < a ∧ b ≤ a ∧ c ≤ a ∧ d ≤ a ∧ e ≤ a) :
    argmaxDomain a b c d e = ("constitutional").data := by
  simp only [argmaxDomain]
  split_ifs <;> first | rfl | (exfalso; omega)

lemma argmaxDomain_cri (a b c d e : Nat)
    (h : 0 < b ∧ a < b ∧ c ≤ b ∧ d ≤ b ∧ e ≤ b) :
    argmaxDomain a b c d e = ("criminal").data := by
  simp only [argmaxDomain]
  split_ifs <;> first | rfl | (exfalso; omega)

lemma argmaxDomain_civ (a b c d e : Nat)
    (h : 0 < c ∧ a < c ∧ b < c ∧ d ≤ c ∧ e ≤ c) :
    argmaxDomain a b c d e = ("civil").data := by
  simp only [argmaxDomain]
  split_ifs <;> first | rfl | (exfalso; omega)

lemma argmaxDomain_fam (a b c d e : Nat)
    (h : 0 < d ∧ a < d ∧ b < d ∧ c < d ∧ e ≤ d) :
    argmaxDomain a b c d e = ("family").data := by
  simp only [argmaxDomain]
  split_ifs <;> first | rfl | (exfalso; omega)

lemma argmaxDomain_cor (a b c d e : Nat)
    (h : 0 < e ∧ a < e ∧ b < e ∧ c < e ∧ d < e) :
    argmaxDomain a b c d e = ("corporate").data := by
  simp only [argmaxDomain]
  split_ifs <;> first | rfl | (exfalso; omega)

/-- C1: For every chunk text, the domain tag equals the domain whose fixed
keyword set has the highest nonzero occurrence count in the case-lowered text
(a keyword occurs if it appears as a substring; the set's count is the number
of its keywords occurring, each counted once, as the code's
`sum(1 for keyword in keywords if keyword in text_lower)` computes), with ties
broken by the enumeration order constitutional > criminal > civil > family >
corporate; the tag is `general` exactly when every domain's count is zero; and
the tagging function is pure and deterministic. -/
theorem c1_domain_tagging (text : List Char) :
    (identifyLegalDomain text = ("general").data ↔
      domainScore constitutionalKeywords (lowerAscii text) = 0 ∧
      domainScore criminalKeywords (lowerAscii text) = 0 ∧
      domainScore civilKeywords (lowerAscii text) = 0 ∧
      domainScore familyKeywords (lowerAscii text) = 0 ∧
      domainScore corporateKeywords (lowerAscii text) = 0) ∧
    (0 < domainScore constitutionalKeywords (lowerAscii text) ∧
      domainScore criminalKeywords (lowerAscii text) ≤ domainScore constitutionalKeywords (lowerAscii text) ∧
      domainScore civilKeywords (lowerAscii text) ≤ domainScore constitutionalKeywords (lowerAscii text) ∧
      domainScore familyKeywords (lowerAscii text) ≤ domainScore constitutionalKeywords (lowerAscii text) ∧
      domainScore corporateKeywords (lowerAscii text) ≤ domainScore constitutionalKeywords (lowerAscii text) →
      identifyLegalDomain text = ("constitutional").data) ∧
    (0 < domainScore criminalKeywords (lowerAscii text) ∧
      domainScore constitutionalKeywords (lowerAscii text) < domainScore criminalKeywords (lowerAscii text) ∧
      domainScore civilKeywords (lowerAscii text) ≤ domainScore criminalKeywords (lowerAscii text) ∧
      domainScore familyKeywords (lowerAscii text) ≤ domainScore criminalKeywords (lowerAscii text) ∧
      domainScore corporateKeywords (lowerAscii text) ≤ domainScore criminalKeywords (lowerAscii text) →
      identifyLegalDomain text = ("criminal").data) ∧
    (0 < domainScore civilKeywords (lowerAscii text) ∧
      domainScore constitutionalKeywords (lowerAscii text) < domainScore civilKeywords (lowerAscii text) ∧
      domainScore criminalKeywords (lowerAscii text) < domainScore civilKeywords (lowerAscii text) ∧
      domainScore familyKeywords (lowerAscii text) ≤ domainScore civilKeywords (lowerAscii text) ∧
      domainScore corporateKeywords (lowerAscii text) ≤ domainScore civilKeywords (lowerAscii text) →
      identifyLegalDomain text = ("civil").data) ∧
    (0 < domainScore familyKeywords (lowerAscii text) ∧
      domainScore constitutionalKeywords (lowerAscii text) < domainScore familyKeywords (lowerAscii text) ∧
      domainScore criminalKeywords (lowerAscii text) < domainScore familyKeywords (lowerAscii text) ∧
      domainScore civilKeywords (lowerAscii text) < domainScore familyKeywords (lowerAscii text) ∧
      domainScore corporateKeywords (lowerAscii text) ≤ domainScore familyKeywords (lowerAscii text) →
      identifyLegalDomain text = ("family").data) ∧
    (0 < domainScore corporateKeywords (lowerAscii text) ∧
      domainScore constitutionalKeywords (lowerAscii text) < domainScore corporateKeywords (lowerAscii text) ∧
      domainScore criminalKeywords (lowerAscii text) < domainScore corporateKeywords (lowerAscii text) ∧
      domainScore civilKeywords (lowerAscii text) < domainScore corporateKeywords (lowerAscii text) ∧
      domainScore familyKeywords (lowerAscii text) < domainScore corporateKeywords (lowerAscii text) →
      identifyLegalDomain text = ("corporate").data) ∧
    (∀ text2, text2 = text → identifyLegalDomain text2 = identifyLegalDomain text) := by
  refine ⟨?_, ?_, ?_, ?_, ?_, ?_, ?_⟩
  · rw [identifyLegalDomain_eq_argmax]
    exact argmaxDomain_general_iff _ _ _ _ _
  · intro h
    rw [identifyLegalDomain_eq_argmax]
    exact argmaxDomain_con _ _ _ _ _ h
  · intro h
    rw [identifyLegalDomain_eq_argmax]
    exact argmaxDomain_cri _ _ _ _ _ h
  · intro h
    rw [identifyLegalDomain_eq_argmax]
    exact argmaxDomain_civ _ _ _ _ _ h
  · intro h
    rw [identifyLegalDomain_eq_argmax]
    exact argmaxDomain_fam _ _ _ _ _ h
  · intro h
    rw [identifyLegalDomain_eq_argmax]
    exact argmaxDomain_cor _ _ _ _ _ h
  · intro text2 h
    rw [h]

/-- C1 witness: a text containing only criminal-law keywords is labelled
`criminal`, by the tie-break theorem applied at a concrete input. -/
theorem c1_domain_tagging_witness :
    identifyLegalDomain (("criminal offence bail").data) = ("criminal").data :=
  (c1_domain_tagging (("criminal offence bail").data)).2.2.1 (by decide)

/-- C5: confidence is the arithmetic mean of the supplied docs' similarity
scores when the list is non-empty, and 0.0 when it is empty. -/
theorem c5_confidence (docs : List RetrievalResult) :
    (docs = [] → calculateConfidence docs = 0) ∧
    (docs ≠ [] → calculateConfidence docs =
      (docs.map (fun d => d.similarity_score)).sum / ((docs.length : ℚ))) := by
  constructor
  · intro h
    simp [calculateConfidence, h]
  · intro h
    rw [calculateConfidence, if_neg h]
    rw [if_neg (by simpa using h)]
    rw [List.length_map]
/-- C5 witness: docs with scores 0.9 and 0.7 yield confidence 0.8. -/
theorem c5_confidence_witness : calculateConfidence [sampleDoc1, sampleDoc2] = 4/5 := by
  rw [(c5_confidence [sampleDoc1, sampleDoc2]).2 (by decide)]
  norm_num [sampleDoc1, sampleDoc2]

/-- C6: any exception raised by a step of the `try` body of
`generate_legal_response` (context construction, prompt construction, the
generation step, the sources list, or confidence computation) is caught and
converted to the fixed degraded answer — the apology message with an empty
sources list and confidence 0.0.  The catching function `runGenerate` is total:
it always returns a `GeneratedAnswer`, never propagating an exception. -/
theorem c6_exceptions_caught (ctx prompt resp : Except PyError (List Char))
    (srcs : Except PyError (List ChunkMeta)) (conf : Except PyError ℚ)
    (h : ctx.isOk = false ∨ prompt.isOk = false ∨ resp.isOk = false ∨
      srcs.isOk = false ∨ conf.isOk = false) :
    runGenerate (generateBody ctx prompt resp srcs conf) = apologyAnswer ∧
    apologyAnswer.response = apologyMessage ∧
    apologyAnswer.sources = [] ∧
    apologyAnswer.confidence = 0 := by
  refine ⟨?_, rfl, rfl, rfl⟩
  cases ctx <;> cases prompt <;> cases resp <;> cases srcs <;> cases conf <;>
    simp_all [runGenerate, generateBody, Except.isOk, Except.toBool, Except.bind]

/-- C6 witness: a raised exception during context construction yields the
apology answer. -/
theorem c6_exceptions_caught_witness :
    runGenerate (generateBody (Except.error (("KeyError").data)) (Except.ok [])
      (Except.ok []) (Except.ok []) (Except.ok 0)) = apologyAnswer :=
  (c6_exceptions_caught (Except.error (("KeyError").data)) (Except.ok []) (Except.ok [])
    (Except.ok []) (Except.ok 0) (Or.inl rfl)).1

/-- C8: retrieval returns the empty list — and no error — whenever the vector
store reports no matching documents (`results['documents'][0]` empty) and
whenever the store call raises (the `except` path); the function is total, so
no exception ever reaches the caller. -/
theorem c8_empty_retrieval :
    (∀ r : QueryResponse, r.documents.head? = some [] →
      retrieveRelevantDocs (Except.ok r) = []) ∧
    (∀ e : PyError, retrieveRelevantDocs (Except.error e) = []) := by
  constructor
  · intro r h
    rcases hm : r.metadatas.head? with _ | ms <;>
      rcases hd : r.distances.head? with _ | dss <;>
        simp [retrieveRelevantDocs, h, hm, hd]
  · intro e
    rfl

/-- C8 witness: retrieval over an empty index result is empty. -/
theorem c8_empty_retrieval_witness :
    retrieveRelevantDocs (Except.ok { documents := [[]], metadatas := [[]], distances := [[]] })
      = [] :=
  c8_empty_retrieval.1 { documents := [[]], metadatas := [[]], distances := [[]] } rfl

/-- C10: a domain argument of `None` or the empty string is falsy, so the
domain-filtered retrieval issues an unfiltered search with `n_results = 10`
and returns exactly what unfiltered retrieval with `k = 10` returns over the
same store and query. -/
theorem c10_falsy_domain_unfiltered
    (S : Nat → Option (List Char) → Except PyError QueryResponse)
    (dom : Option (List Char)) (h : dom = none ∨ dom = some []) :
    filterByLegalDomain S dom = retrieveWithStore S 10 := by
  rcases h with h | h <;> subst h <;>
    simp [filterByLegalDomain, retrieveWithStore, whereFilterOf]

/-- C10 witness: the empty-string domain gives the unfiltered k=10 result. -/
theorem c10_falsy_domain_unfiltered_witness :
    filterByLegalDomain sampleStore (some []) = retrieveWithStore sampleStore 10 :=
  c10_falsy_domain_unfiltered sampleStore (some []) (Or.inr rfl)

lemma formatSearchResults_length (ds : List (List Char)) (ms : List ChunkMeta)
    (dss : List ℚ) (hm : ms.length = ds.length) (hd : dss.length = ds.length) :
    (formatSearchResults ds ms dss).length = ds.length := by
  simp [formatSearchResults, List.length_zip, hm, hd]

lemma formatSearchResults_getElem (ds : List (List Char)) (ms : List ChunkMeta)
    (dss : List ℚ) (i : Nat)
    (h1 : i < ds.length) (h2 : i < ms.length) (h3 : i < dss.length)
    (hi : i < (formatSearchResults ds ms dss).length) :
    (formatSearchResults ds ms dss)[i] =
      { content := ds[i], metadata := ms[i],
        similarity_score := 1 - dss[i], rank := i + 1 } := by
  have hz : i < (ds.zip (ms.zip dss)).length := by
    simp [List.length_zip]; omega
  have he : i < (ds.zip (ms.zip dss)).enum.length := by
    simpa [List.enum_length] using hz
  simp [formatSearchResults, List.getElem_map, List.getElem_enum, List.getElem_zip]

/-- C4: under the Vector Index contract of spec §4.3 (at most `k` parallel
result rows, distances ascending, each distance in `[0,1]`), `retrieve`
returns at most `k` results; each result's `similarity_score` is `1` minus
the corresponding reported distance and lies in `[0,1]`; the results are in
non-increasing `similarity_score` order; and each result's `rank` is its
1-based position in the returned order.  The index itself (ChromaDB) is an
external collaborator, so its guarantees enter as hypotheses. -/
theorem c4_retrieve_ranked (k : Nat) (ds : List (List Char)) (ms : List ChunkMeta)
    (dss : List ℚ)
    (hm : ms.length = ds.length) (hd : dss.length = ds.length)
    (hk : ds.length ≤ k)
    (hsorted : List.Chain' (fun a b : ℚ => a ≤ b) dss)
    (hrange : ∀ d ∈ dss, 0 ≤ d ∧ d ≤ 1) :
    (retrieveRelevantDocs (Except.ok
        { documents := [ds], metadatas := [ms], distances := [dss] })).length ≤ k ∧
    (∀ i, ∀ hi : i < (retrieveRelevantDocs (Except.ok
        { documents := [ds], metadatas := [ms], distances := [dss] })).length,
      ∀ hi2 : i < dss.length,
      ((retrieveRelevantDocs (Except.ok
        { documents := [ds], metadatas := [ms], distances := [dss] })).get ⟨i, hi⟩).similarity_score
          = 1 - dss.get ⟨i, hi2⟩ ∧
      ((retrieveRelevantDocs (Except.ok
        { documents := [ds], metadatas := [ms], distances := [dss] })).get ⟨i, hi⟩).rank = i + 1) ∧
    (∀ r ∈ retrieveRelevantDocs (Except.ok
        { documents := [ds], metadatas := [ms], distances := [dss] }),
      0 ≤ r.similarity_score ∧ r.similarity_score ≤ 1) ∧
    List.Chain' (fun a b => b.similarity_score ≤ a.similarity_score)
      (retrieveRelevantDocs (Except.ok
        { documents := [ds], metadatas := [ms], distances := [dss] })) := by
  by_cases hds : ds = []
  · subst hds
    have hout : retrieveRelevantDocs (Except.ok
        { documents := [([] : List (List Char))], metadatas := [ms], distances := [dss] }) = [] := by
      simp [retrieveRelevantDocs]
    rw [hout]
    refine ⟨by simp, ?_, by simp, by simp⟩
    intro i hi hi2
    simp at hi
  · have hout : retrieveRelevantDocs (Except.ok
        { documents := [ds], metadatas := [ms], distances := [dss] })
          = formatSearchResults ds ms dss := by
      simp [retrieveRelevantDocs, hds]
    rw [hout]
    have hlen := formatSearchResults_length ds ms dss hm hd
    refine ⟨by omega, ?_, ?_, ?_⟩
    · intro i hi hi2
      have h1 : i < ds.length := by omega
      have h2 : i < ms.length := by omega
      rw [List.get_eq_getElem, List.get_eq_getElem,
        formatSearchResults_getElem ds ms dss i h1 h2 hi2 hi]
      exact ⟨rfl, rfl⟩
    · intro r hr
      rcases List.mem_iff_get.mp hr with ⟨⟨n, hn⟩, hrn⟩
      have h3 : n < dss.length := by omega
      rw [List.get_eq_getElem,
        formatSearchResults_getElem ds ms dss n (by omega) (by omega) h3 hn] at hrn
      rw [← hrn]
      have hmem : dss[n] ∈ dss := List.getElem_mem h3
      rcases hrange _ hmem with ⟨hlo, hhi⟩
      constructor
      · show (0 : ℚ) ≤ 1 - dss[n]
        linarith
      · show (1 : ℚ) - dss[n] ≤ 1
        linarith
    · rw [List.chain'_iff_get]
      intro i hchain
      have hi : i < (formatSearchResults ds ms dss).length := by omega
      have hi1 : i + 1 < (formatSearchResults ds ms dss).length := by omega
      have h3 : i < dss.length := by omega
      have h31 : i + 1 < dss.length := by omega
      rw [List.get_eq_getElem, List.get_eq_getElem,
        formatSearchResults_getElem ds ms dss i (by omega) (by omega) h3 hi,
        formatSearchResults_getElem ds ms dss (i + 1) (by omega) (by omega) h31 hi1]
      have hstep : dss[i] ≤ dss[i + 1] := by
        have := List.chain'_iff_get.mp hsorted i (by omega)
        simpa using this
      show (1 : ℚ) - dss[i + 1] ≤ 1 - dss[i]
      linarith

/-- C4 witness: a concrete two-row index response with ascending distances. -/
theorem c4_retrieve_ranked_witness :
    (retrieveRelevantDocs (Except.ok
        { documents := [[("a").data, ("b").data]], metadatas := [[sampleMeta, sampleMeta]],
          distances := [[1/4, 1/2]] })).length ≤ 5 ∧
    List.Chain' (fun a b => b.similarity_score ≤ a.similarity_score)
      (retrieveRelevantDocs (Except.ok
        { documents := [[("a").data, ("b").data]], metadatas := [[sampleMeta, sampleMeta]],
          distances := [[1/4, 1/2]] })) := by
  have h := c4_retrieve_ranked 5 [("a").data, ("b").data] [sampleMeta, sampleMeta] [1/4, 1/2]
    (by decide) (by decide) (by decide)
    (by simp [List.chain'_cons]; norm_num)
    (by intro d hd; simp at hd; rcases hd with h | h <;> subst h <;> norm_num)
  exact ⟨h.1, h.2.2.2⟩

/-- C7 counterexample: with the model loaded but raising during generation,
the response is the fixed inability message of the inner handler in
`_generate_with_model` — NOT the rule-based numbered-documents response the
claim prescribes for that case. -/
theorem c7_counterexample :
    (generateLegalResponse true (Except.error (("boom").data)) (("q").data)
      [sampleDoc1]).response = unableMessage ∧
    unableMessage ≠ ruleBasedResponse (("q").data) [sampleDoc1] := by
  exact ⟨rfl, by decide⟩

/-- C7 amended: the rule-based fallback is used exactly when the model failed
to load at construction (empty docs give the fixed no-information message,
otherwise the header, the first 300 characters of the top 2 documents with
numbered prefixes, and the educational-use disclaimer); when the model loaded
but raised during generation, the response is instead the fixed
`unableMessage` produced by the inner handler. -/
theorem c7_model_fallback_amended (modelOutcome : Except PyError (List Char))
    (query : List Char) (docs : List RetrievalResult) :
    ((generateLegalResponse false modelOutcome query docs).response
        = ruleBasedResponse query docs) ∧
    (docs = [] → ruleBasedResponse query docs = noInfoMessage) ∧
    (docs ≠ [] → ruleBasedResponse query docs
        = ruleHeader ++ numberedBlocks docs ++ disclaimerMessage) ∧
    (∀ e, modelOutcome = Except.error e →
      (generateLegalResponse true modelOutcome query docs).response = unableMessage) := by
  refine ⟨rfl, ?_, ?_, ?_⟩
  · intro h
    simp [ruleBasedResponse, h]
  · intro h
    simp [ruleBasedResponse, h]
  · intro e he
    subst he
    rfl

/-- C7 amended witness: concrete checks of both fallback branches. -/
theorem c7_model_fallback_amended_witness :
    ruleBasedResponse (("q").data) [] = noInfoMessage ∧
    (generateLegalResponse true (Except.error (("boom").data)) (("q").data)
      [sampleDoc1]).response = unableMessage :=
  ⟨(c7_model_fallback_amended (Except.error (("boom").data)) (("q").data) []).2.1 rfl,
   (c7_model_fallback_amended (Except.error (("boom").data)) (("q").data)
      [sampleDoc1]).2.2.2 (("boom").data) rfl⟩

/-- C9 counterexample: with the generative model loaded, `generate(query, [])`
returns whatever the model produced — here the text `Yes.` — which is not the
no-information message, refuting the claim that the response always indicates
that no relevant information was found.  (The confidence is still 0.) -/
theorem c9_counterexample :
    (generateLegalResponse true (Except.ok (("Yes.").data)) [] []).confidence = 0 ∧
    (generateLegalResponse true (Except.ok (("Yes.").data)) [] []).response = ("Yes.").data ∧
    (generateLegalResponse true (Except.ok (("Yes.").data)) [] []).response ≠ noInfoMessage := by
  refine ⟨rfl, by decide, by decide⟩

/-- C9 amended: `generate(query, [])` always returns confidence 0.0 and an
empty sources list; the response is the fixed message indicating that no
relevant information was found whenever the generative model is unavailable
(the rule-based path) — with a loaded model the response is the model's own
output instead. -/
theorem c9_empty_docs_amended (generatorLoaded : Bool)
    (modelOutcome : Except PyError (List Char)) (query : List Char) :
    (generateLegalResponse generatorLoaded modelOutcome query []).confidence = 0 ∧
    (generateLegalResponse generatorLoaded modelOutcome query []).sources = [] ∧
    (generatorLoaded = false →
      (generateLegalResponse generatorLoaded modelOutcome query []).response = noInfoMessage) := by
  refine ⟨?_, ?_, ?_⟩
  · cases generatorLoaded <;> rfl
  · cases generatorLoaded <;> rfl
  · intro h
    subst h
    rfl

/-- C9 amended witness: the rule-based path at a concrete input. -/
theorem c9_empty_docs_amended_witness :
    (generateLegalResponse false (Except.ok []) [] []).response = noInfoMessage ∧
    (generateLegalResponse false (Except.ok []) [] []).confidence = 0 :=
  ⟨(c9_empty_docs_amended false (Except.ok []) []).2.2 rfl,
   (c9_empty_docs_amended false (Except.ok []) []).1⟩

lemma splitDotSpace_ne_nil (l : List Char) : splitDotSpace l ≠ [] := by
  induction l using splitDotSpace.induct with
  | case1 => simp [splitDotSpace]
  | case2 rest ih => simp [splitDotSpace]
  | case3 c rest h he ih =>
    rw [splitDotSpace]
    · rw [he]
      simp
    · exact h
  | case4 c rest h w ws heq ih =>
    rw [splitDotSpace]
    · rw [heq]
      simp
    · exact h

lemma dotsJoin_splitDotSpace (l : List Char) :
    dotsJoin (splitDotSpace l) = l ++ ['.', ' '] := by
  induction l using splitDotSpace.induct with
  | case1 => rfl
  | case2 rest ih => simp [splitDotSpace, dotsJoin, ih]
  | case3 c rest h he ih => exact absurd he (splitDotSpace_ne_nil rest)
  | case4 c rest h w ws heq ih =>
    rw [splitDotSpace]
    · rw [heq]
      rw [heq] at ih
      simp only [dotsJoin] at ih ⊢
      simp only [List.cons_append]
      rw [ih]
    · exact h

lemma dropWhile_head_false {p : Char → Bool} :
    ∀ {l : List Char} {c : Char} {r : List Char}, l.dropWhile p = c :: r → p c = false := by
  intro l
  induction l with
  | nil => intro c r h; simp at h
  | cons x xs ih =>
    intro c r h
    rw [List.dropWhile_cons] at h
    by_cases hx : p x = true
    · rw [if_pos hx] at h
      exact ih h
    · rw [if_neg hx] at h
      cases h
      simpa using hx

lemma pyStrip_head_false :
    ∀ {x : List Char} {c : Char} {r : List Char},
      pyStrip x = c :: r → isSpacePy c = false := by
  intro x c r h
  unfold pyStrip at h
  have hsuf : ((x.dropWhile isSpacePy).reverse.dropWhile isSpacePy) <:+
      (x.dropWhile isSpacePy).reverse := List.dropWhile_suffix _
  have hpre : ((x.dropWhile isSpacePy).reverse.dropWhile isSpacePy).reverse <+:
      (x.dropWhile isSpacePy).reverse.reverse := List.reverse_prefix.mpr hsuf
  rw [List.reverse_reverse] at hpre
  rw [h] at hpre
  rcases hpre with ⟨t, ht⟩
  exact dropWhile_head_false ht.symm

lemma pyStrip_append_dot_space (x : List Char) :
    pyStrip (pyStrip x ++ ['.', ' ']) = pyStrip x ++ ['.'] := by
  have hdrop : (pyStrip x ++ ['.', ' ']).dropWhile isSpacePy = pyStrip x ++ ['.', ' '] := by
    rcases hx : pyStrip x with _ | ⟨c, r⟩
    · simp [List.dropWhile_cons, isSpacePy]
    · have hc := pyStrip_head_false hx
      simp [List.dropWhile_cons, hc]
  show ((((pyStrip x ++ ['.', ' ']).dropWhile isSpacePy).reverse.dropWhile isSpacePy).reverse)
      = pyStrip x ++ ['.']
  rw [hdrop]
  have : (pyStrip x ++ ['.', ' ']).reverse = ' ' :: '.' :: (pyStrip x).reverse := by
    simp
  rw [this]
  rw [List.dropWhile_cons]
  rw [if_pos (by simp [isSpacePy])]
  rw [List.dropWhile_cons]
  rw [if_neg (by simp [isSpacePy])]
  simp

lemma foldl_chunkStep_all_else (size overlap : Nat) :
    ∀ (ss : List (List Char)) (chunks : List (List Char)) (cur : List Char),
      cur.length + (dotsJoin ss).length ≤ size + 2 →
      ss.foldl (chunkStep size overlap) (chunks, cur) = (chunks, cur ++ dotsJoin ss) := by
  intro ss
  induction ss with
  | nil =>
    intro chunks cur h
    simp [dotsJoin]
  | cons s rest ih =>
    intro chunks cur h
    have hjl : (dotsJoin (s :: rest)).length = s.length + 2 + (dotsJoin rest).length := by
      simp only [dotsJoin, List.length_append, List.length_cons]
      omega
    have hstep : chunkStep size overlap (chunks, cur) s = (chunks, cur ++ s ++ ['.', ' ']) := by
      simp only [chunkStep]
      rw [if_neg]
      intro hcon
      rcases hcon with ⟨h1, _⟩
      rw [List.length_append] at h1
      omega
    rw [List.foldl_cons, hstep, ih _ _ (by
      simp only [List.length_append, List.length_cons, List.length_nil]
      omega)]
    simp [dotsJoin, List.append_assoc]

/-- C2 counterexample: the input `hello world` cleans to itself (11 < 1000
characters), yet chunking yields the single chunk `hello world.` — the cleaned
text with a trailing period appended by the loop's `sentence + '. '` — which
is not equal to the cleaned text. -/
theorem c2_counterexample :
    (cleanText (("hello world").data)).length < CHUNK_SIZE ∧
    createChunks CHUNK_SIZE CHUNK_OVERLAP (cleanText (("hello world").data))
      ≠ [cleanText (("hello world").data)] := by
  constructor
  · decide
  · decide

/-- C2 amended: for every input text whose cleaned form is shorter than the
chunk-size threshold, chunking returns exactly one chunk, and that chunk's
content equals the cleaned text with one trailing period appended (the loop
re-appends `'. '` after every sentence, including the last, and the final
strip removes the trailing space but keeps the period). -/
theorem c2_short_text_single_chunk (size overlap : Nat) (text : List Char)
    (h : (cleanText text).length < size) :
    createChunks size overlap (cleanText text) = [cleanText text ++ ['.']] := by
  unfold createChunks
  have hjoin := dotsJoin_splitDotSpace (cleanText text)
  have hfold := foldl_chunkStep_all_else size overlap (splitDotSpace (cleanText text)) [] []
    (by rw [hjoin]; simp only [List.length_nil, List.length_append]; simp; omega)
  rw [hfold]
  have hstrip : pyStrip (cleanText text ++ ['.', ' ']) = cleanText text ++ ['.'] := by
    have := pyStrip_append_dot_space
      (removeMarkers (replaceRupee ((collapseWs text).filter keepChar)))
    simpa [cleanText] using this
  simp only [hjoin, List.nil_append]
  rw [if_pos]
  · rw [hstrip]
  · rw [hstrip]
    simp

/-- C2 amended witness: the concrete input `hello world`. -/
theorem c2_short_text_single_chunk_witness :
    (cleanText (("hello world").data)).length < CHUNK_SIZE ∧
    createChunks CHUNK_SIZE CHUNK_OVERLAP (cleanText (("hello world").data))
      = [cleanText (("hello world").data) ++ ['.']] :=
  ⟨by decide,
   c2_short_text_single_chunk CHUNK_SIZE CHUNK_OVERLAP (("hello world").data) (by decide)⟩

lemma wrun_nil (acc : List Char) : wrun acc [] = ([], acc) := rfl

lemma wrun_cons_ws_nil {c : Char} (hc : isSpacePy c = true) (cs : List Char) :
    wrun [] (c :: cs) = wrun [] cs := by
  simp [wrun, hc]

lemma wrun_cons_ws {c : Char} (hc : isSpacePy c = true) (acc : List Char)
    (hacc : acc ≠ []) (cs : List Char) :
    wrun acc (c :: cs) = (acc.reverse :: (wrun [] cs).1, (wrun [] cs).2) := by
  simp [wrun, hc, hacc]

lemma wrun_cons_word {c : Char} (hc : isSpacePy c = false) (acc cs : List Char) :
    wrun acc (c :: cs) = wrun (c :: acc) cs := by
  simp [wrun, hc]

lemma wrun_append (a : List Char) :
    ∀ (b acc : List Char),
      wrun acc (a ++ b) =
        ((wrun acc a).1 ++ (wrun (wrun acc a).2 b).1, (wrun (wrun acc a).2 b).2) := by
  induction a with
  | nil =>
    intro b acc
    simp [wrun_nil]
  | cons c cs ih =>
    intro b acc
    by_cases hc : isSpacePy c = true
    · by_cases hacc : acc = []
      · subst hacc
        rw [List.cons_append, wrun_cons_ws_nil hc, wrun_cons_ws_nil hc, ih]
      · rw [List.cons_append, wrun_cons_ws hc acc hacc, wrun_cons_ws hc acc hacc, ih]
        simp [List.cons_append]
    · rw [List.cons_append, wrun_cons_word (by simpa using hc),
        wrun_cons_word (by simpa using hc), ih]

lemma wrun_word (w : List Char) :
    ∀ acc, (∀ c ∈ w, isSpacePy c = false) → wrun acc w = ([], w.reverse ++ acc) := by
  induction w with
  | nil =>
    intro acc _
    simp [wrun_nil]
  | cons c cs ih =>
    intro acc h
    rw [wrun_cons_word (h c (by simp)), ih _ (fun x hx => h x (by simp [hx]))]
    simp

lemma wrun_ws_only (t : List Char) :
    ∀ acc, t ≠ [] → (∀ c ∈ t, isSpacePy c = true) → wrun acc t = (closePend acc, []) := by
  induction t with
  | nil =>
    intro acc h _
    exact absurd rfl h
  | cons c cs ih =>
    intro acc _ h
    have hc : isSpacePy c = true := h c (by simp)
    rcases hcs : cs with _ | ⟨c2, cs2⟩
    · by_cases hacc : acc = []
      · subst hacc
        rw [wrun_cons_ws_nil hc]
        simp [wrun_nil, closePend]
      · rw [wrun_cons_ws hc acc hacc]
        simp [wrun_nil, closePend, hacc]
    · rw [← hcs]
      have hcs2 : cs ≠ [] := by simp [hcs]
      have hall : ∀ x ∈ cs, isSpacePy x = true := fun x hx => h x (by simp [hx])
      by_cases hacc : acc = []
      · subst hacc
        rw [wrun_cons_ws_nil hc, ih [] hcs2 hall]
      · rw [wrun_cons_ws hc acc hacc, ih [] hcs2 hall]
        simp [closePend, hacc]

lemma endsWs_nil : endsWs [] := by
  intro c h
  simp at h

lemma endsWs_concat_space (x : List Char) : endsWs (x ++ [' ']) := by
  intro c h
  rw [List.getLast?_concat] at h
  cases h
  rfl

lemma endsWs_append_ws_tail (x s : List Char) (hs : ∀ c ∈ s, isSpacePy c = true) :
    endsWs (x ++ ' ' :: s) := by
  intro c h
  have hne : (' ' :: s) ≠ [] := by simp
  have hl : (x ++ ' ' :: s).getLast? = (' ' :: s).getLast? := by
    rw [List.getLast?_append]
    rcases ho : (' ' :: s).getLast? with _ | v
    · exact absurd ho (by simp [List.getLast?_eq_getLast _ hne])
    · rfl
  rw [hl] at h
  have hc : c ∈ ' ' :: s := List.mem_of_mem_getLast? h
  rcases List.mem_cons.mp hc with hc | hc
  · subst hc
    rfl
  · exact hs c hc

lemma wrun_pend_single_ws {c : Char} (hc : isSpacePy c = true) (acc : List Char) :
    (wrun acc [c]).2 = [] := by
  by_cases hacc : acc = []
  · subst hacc
    rw [wrun_cons_ws_nil hc]
    rfl
  · rw [wrun_cons_ws hc acc hacc]
    rfl

lemma wrun_pend_endsWs (l : List Char) (hne : l ≠ []) (h : endsWs l) (acc : List Char) :
    (wrun acc l).2 = [] := by
  have hdec := List.dropLast_append_getLast hne
  have hlast : isSpacePy (l.getLast hne) = true :=
    h _ (List.getLast?_eq_getLast l hne)
  conv in wrun acc l => rw [← hdec]
  rw [wrun_append]
  exact wrun_pend_single_ws hlast _

lemma wrun_proper (l : List Char) :
    ∀ acc, (∀ c ∈ acc, isSpacePy c = false) →
      (∀ w ∈ (wrun acc l).1, w ≠ [] ∧ ∀ c ∈ w, isSpacePy c = false) ∧
      (∀ c ∈ (wrun acc l).2, isSpacePy c = false) := by
  induction l with
  | nil =>
    intro acc hacc
    exact ⟨by simp [wrun_nil], by simpa [wrun_nil] using hacc⟩
  | cons c cs ih =>
    intro acc hacc
    by_cases hc : isSpacePy c = true
    · by_cases haccn : acc = []
      · subst haccn
        rw [wrun_cons_ws_nil hc]
        exact ih [] (by simp)
      · rw [wrun_cons_ws hc acc haccn]
        have hrest := ih [] (by simp)
        constructor
        · intro w hw
          rcases List.mem_cons.mp hw with hw | hw
          · subst hw
            exact ⟨by simpa using haccn, fun x hx => hacc x (List.mem_reverse.mp hx)⟩
          · exact hrest.1 w hw
        · exact hrest.2
    · rw [wrun_cons_word (by simpa using hc)]
      exact ih (c :: acc) (by
        intro x hx
        rcases List.mem_cons.mp hx with hx | hx
        · subst hx
          simpa using hc
        · exact hacc x hx)

lemma pyWords_proper (l : List Char) :
    ∀ w ∈ pyWords l, w ≠ [] ∧ ∀ c ∈ w, isSpacePy c = false := by
  intro w hw
  have hp := wrun_proper l [] (by simp)
  unfold pyWords at hw
  rcases List.mem_append.mp hw with hw | hw
  · exact hp.1 w hw
  · unfold closePend at hw
    by_cases hpend : (wrun [] l).2 = []
    · rw [if_pos hpend] at hw
      simp at hw
    · rw [if_neg hpend] at hw
      simp at hw
      subst hw
      exact ⟨by simpa using hpend, fun x hx => hp.2 x (List.mem_reverse.mp hx)⟩

lemma wrun_ne_nil (l : List Char) :
    ∀ acc, acc ≠ [] → ¬((wrun acc l).1 = [] ∧ (wrun acc l).2 = []) := by
  induction l with
  | nil =>
    intro acc hacc h
    exact hacc (by simpa [wrun_nil] using h.2)
  | cons c cs ih =>
    intro acc hacc h
    by_cases hc : isSpacePy c = true
    · rw [wrun_cons_ws hc acc hacc] at h
      simp at h
    · rw [wrun_cons_word (by simpa using hc)] at h
      exact ih (c :: acc) (by simp) h

lemma pyWords_cons_ws {c : Char} (hc : isSpacePy c = true) (cs : List Char) :
    pyWords (c :: cs) = pyWords cs := by
  unfold pyWords
  rw [wrun_cons_ws_nil hc]

lemma pyWords_nil_iff (l : List Char) :
    pyWords l = [] ↔ ∀ c ∈ l, isSpacePy c = true := by
  constructor
  · intro h
    intro c hc
    by_contra hcw
    induction l with
    | nil => simp at hc
    | cons x xs ih =>
      by_cases hx : isSpacePy x = true
      · rw [pyWords_cons_ws hx] at h
        rcases List.mem_cons.mp hc with he | he
        · subst he
          exact hcw hx
        · exact ih h he
      · unfold pyWords at h
        rw [wrun_cons_word (by simpa using hx)] at h
        rcases List.append_eq_nil.mp h with ⟨h1, h2⟩
        have h2p : (wrun (x :: []) xs).2 = [] := by
          unfold closePend at h2
          by_cases hp : (wrun [x] xs).2 = []
          · exact hp
          · rw [if_neg hp] at h2
            simp at h2
        exact wrun_ne_nil xs [x] (by simp) ⟨h1, h2p⟩
  · intro h
    rcases hl : l with _ | ⟨c, cs⟩
    · rfl
    · rw [← hl]
      unfold pyWords
      rw [wrun_ws_only l [] (by simp [hl]) h]
      simp [closePend]

lemma pyWords_append_ws_tail (x T : List Char) (hT : ∀ c ∈ T, isSpacePy c = true) :
    pyWords (x ++ T) = pyWords x := by
  rcases hTn : T with _ | ⟨c, cs⟩
  · simp
  · rw [← hTn]
    unfold pyWords
    rw [wrun_append, wrun_ws_only T _ (by simp [hTn]) hT]
    rcases hp : (wrun [] x).2 with _ | ⟨p, ps⟩
    · simp [closePend]
    · simp [closePend]

lemma pyWords_dropWhile_ws (l : List Char) :
    pyWords (l.dropWhile isSpacePy) = pyWords l := by
  induction l with
  | nil => rfl
  | cons c cs ih =>
    rw [List.dropWhile_cons]
    by_cases hc : isSpacePy c = true
    · rw [if_pos hc, ih, pyWords_cons_ws hc]
    · rw [if_neg hc]

lemma pyWords_pyStrip (l : List Char) : pyWords (pyStrip l) = pyWords l := by
  unfold pyStrip
  have hdec : l.dropWhile isSpacePy =
      ((l.dropWhile isSpacePy).reverse.dropWhile isSpacePy).reverse ++
        ((l.dropWhile isSpacePy).reverse.takeWhile isSpacePy).reverse := by
    conv in List.dropWhile isSpacePy l =>
      rw [← List.reverse_reverse (l.dropWhile isSpacePy),
        ← List.takeWhile_append_dropWhile isSpacePy (l.dropWhile isSpacePy).reverse]
    rw [List.reverse_append]
  have hT : ∀ c ∈ ((l.dropWhile isSpacePy).reverse.takeWhile isSpacePy).reverse,
      isSpacePy c = true := by
    intro c hc
    exact List.mem_takeWhile_imp (List.mem_reverse.mp hc)
  calc pyWords (((l.dropWhile isSpacePy).reverse.dropWhile isSpacePy).reverse)
      = pyWords (((l.dropWhile isSpacePy).reverse.dropWhile isSpacePy).reverse ++
          ((l.dropWhile isSpacePy).reverse.takeWhile isSpacePy).reverse) :=
        (pyWords_append_ws_tail _ _ hT).symm
    _ = pyWords (l.dropWhile isSpacePy) := by rw [← hdec]
    _ = pyWords l := pyWords_dropWhile_ws l

lemma closePend_length_le (p : List Char) : (closePend p).length ≤ 1 := by
  unfold closePend
  split <;> simp

lemma pyWords_take_append (cur t : List Char) (k : Nat)
    (hk : k ≤ (pyWords cur).length)
    (hcase : k < (pyWords cur).length ∨ endsWs cur) :
    (pyWords (cur ++ t)).take k = (pyWords cur).take k := by
  by_cases hne : cur = []
  · subst hne
    have h0 : pyWords ([] : List Char) = [] := rfl
    rw [h0] at hk
    simp at hk
    subst hk
    simp
  · have happ : pyWords (cur ++ t) =
        (wrun [] cur).1 ++ ((wrun (wrun [] cur).2 t).1 ++
          closePend (wrun (wrun [] cur).2 t).2) := by
      unfold pyWords
      rw [wrun_append]
      rw [List.append_assoc]
    have hcur : pyWords cur = (wrun [] cur).1 ++ closePend (wrun [] cur).2 := rfl
    have hkw : k ≤ (wrun [] cur).1.length := by
      rcases hcase with hlt | hws
      · rw [hcur] at hlt
        rw [List.length_append] at hlt
        have := closePend_length_le (wrun [] cur).2
        omega
      · have hp : (wrun [] cur).2 = [] := wrun_pend_endsWs cur hne hws []
        rw [hcur, hp] at hk
        simpa [closePend] using hk
    rw [happ, hcur, List.take_append_of_le_length hkw, List.take_append_of_le_length hkw]

lemma pyWords_word_space (w X : List Char) (hw : w ≠ [])
    (hc : ∀ c ∈ w, isSpacePy c = false) :
    pyWords (w ++ ' ' :: X) = w :: pyWords X := by
  unfold pyWords
  rw [wrun_append, wrun_word w [] hc]
  simp only [List.append_nil]
  rw [@wrun_cons_ws ' ' (by decide) w.reverse (by simpa using hw) X]
  simp

lemma pyWords_joinWords_space (ws : List (List Char)) (s : List Char)
    (h : ∀ w ∈ ws, w ≠ [] ∧ ∀ c ∈ w, isSpacePy c = false) :
    pyWords (joinWords ws ++ ' ' :: s) = ws ++ pyWords s := by
  induction ws with
  | nil =>
    simp only [joinWords, List.nil_append]
    rw [@pyWords_cons_ws ' ' (by decide) s]
  | cons w rest ih =>
    rcases hr : rest with _ | ⟨w2, rest2⟩
    · subst hr
      simp only [joinWords]
      rw [pyWords_word_space w s (h w (by simp)).1 (h w (by simp)).2]
      rfl
    · rw [← hr]
      have hjw : joinWords (w :: rest) = w ++ ' ' :: joinWords rest := by
        rw [hr]
        rfl
      rw [hjw, List.append_assoc, List.cons_append]
      rw [pyWords_word_space w _ (h w (by simp)).1 (h w (by simp)).2]
      rw [ih (fun x hx => h x (by simp [hx]))]
      rfl

lemma takeLastN_length (n : Nat) (l : List α) :
    (takeLastN n l).length = min n l.length := by
  unfold takeLastN
  rw [List.length_drop]
  omega

lemma takeLastN_mem {n : Nat} {l : List α} {x : α} (h : x ∈ takeLastN n l) : x ∈ l :=
  List.mem_of_mem_drop h

lemma overlapSeed_pyStrip (ov : Nat) (a cur : List Char) (h : overlapSeed ov a cur) :
    overlapSeed ov a (pyStrip cur) := by
  unfold overlapSeed at h ⊢
  rw [pyWords_pyStrip]
  exact h

lemma overlapSeed_le_length (ov : Nat) (a cur : List Char) (h : overlapSeed ov a cur) :
    min ov (pyWords a).length ≤ (pyWords cur).length := by
  unfold overlapSeed at h
  have hl := congrArg List.length h
  rw [List.length_take, List.length_drop] at hl
  omega

lemma chunkStep_inv (size ov : Nat) (st : List (List Char) × List Char) (s : List Char)
    (h : ChunkInv ov st) : ChunkInv ov (chunkStep size ov st s) := by
  unfold chunkStep
  split_ifs with hcond
  · have hseedW : pyWords (joinWords (takeLastN ov (pyWords st.2)) ++ ' ' :: s)
        = takeLastN ov (pyWords st.2) ++ pyWords s :=
      pyWords_joinWords_space _ s (fun w hw => pyWords_proper st.2 w (takeLastN_mem hw))
    constructor
    · rw [List.chain'_append]
      refine ⟨h.1, List.chain'_singleton _, ?_⟩
      intro x hx y hy
      simp at hy
      subst hy
      exact overlapSeed_pyStrip _ _ _ (h.2 x (Option.mem_def.mp hx)).1
    · intro a ha
      rw [List.getLast?_concat] at ha
      cases ha
      constructor
      · unfold overlapSeed
        rw [pyWords_pyStrip, hseedW]
        rw [← takeLastN_length ov (pyWords st.2)]
        rw [List.take_left]
        rfl
      · by_cases hs : pyWords s = []
        · right
          exact endsWs_append_ws_tail _ s ((pyWords_nil_iff s).mp hs)
        · left
          rw [pyWords_pyStrip, hseedW, List.length_append, takeLastN_length]
          have hpos : (pyWords s).length ≠ 0 := by simpa using hs
          omega
  · constructor
    · exact h.1
    · intro a ha
      rcases h.2 a ha with ⟨hseed, hdisj⟩
      have hk := overlapSeed_le_length ov a st.2 hseed
      constructor
      · unfold overlapSeed at hseed ⊢
        rw [List.append_assoc]
        rw [pyWords_take_append st.2 (s ++ ['.', ' ']) _ hk hdisj]
        exact hseed
      · right
        have hre : st.2 ++ s ++ ['.', ' '] = (st.2 ++ s ++ ['.']) ++ [' '] := by
          simp
        rw [hre]
        exact endsWs_concat_space _

lemma foldl_chunkStep_inv (size ov : Nat) :
    ∀ (ss : List (List Char)) (st : List (List Char) × List Char),
      ChunkInv ov st → ChunkInv ov (ss.foldl (chunkStep size ov) st) := by
  intro ss
  induction ss with
  | nil =>
    intro st h
    exact h
  | cons s rest ih =>
    intro st h
    rw [List.foldl_cons]
    exact ih _ (chunkStep_inv size ov st s h)

lemma createChunks_chain (size ov : Nat) (text : List Char) :
    List.Chain' (overlapSeed ov) (createChunks size ov text) := by
  have hinv := foldl_chunkStep_inv size ov (splitDotSpace text) ([], [])
    ⟨List.chain'_nil, by intro a ha; simp at ha⟩
  simp only [createChunks]
  split_ifs with hflush
  · rw [List.chain'_append]
    refine ⟨hinv.1, List.chain'_singleton _, ?_⟩
    intro x hx y hy
    simp at hy
    subst hy
    exact overlapSeed_pyStrip _ _ _ (hinv.2 x (Option.mem_def.mp hx)).1
  · exact hinv.1

/-- C3: for every input text (in particular those long enough to require
splitting), the chunks of one processed document carry `chunk_id` values
forming the contiguous sequence `0..N-1` in emission order, every chunk
carries `total_chunks = N`, each pair of consecutive chunks is seeded: the
following chunk begins with exactly the last `min 200 (word count)` words of
the preceding chunk (the configured overlap, taken from the tail of the
earlier chunk), and that seed is at most `CHUNK_OVERLAP = 200` words long. -/
theorem c3_chunk_ids_and_overlap (fullText sourceName : List Char) :
    ((processTextContent fullText sourceName).map (fun ch => ch.metadata.chunk_id)
        = List.range (processTextContent fullText sourceName).length) ∧
    (∀ ch ∈ processTextContent fullText sourceName,
        ch.metadata.total_chunks = (processTextContent fullText sourceName).length) ∧
    List.Chain' (fun a b => overlapSeed CHUNK_OVERLAP a.content b.content)
      (processTextContent fullText sourceName) ∧
    (∀ ch ∈ processTextContent fullText sourceName,
        ((pyWords ch.content).drop ((pyWords ch.content).length - CHUNK_OVERLAP)).length
          ≤ CHUNK_OVERLAP) := by
  have hchain := createChunks_chain CHUNK_SIZE CHUNK_OVERLAP (cleanText fullText)
  rw [show processTextContent fullText sourceName =
      (createChunks CHUNK_SIZE CHUNK_OVERLAP (cleanText fullText)).enum.map
        (fun p : Nat × List Char =>
          Chunk.mk p.2 (ChunkMeta.mk sourceName (("txt").data) p.1
            (createChunks CHUNK_SIZE CHUNK_OVERLAP (cleanText fullText)).length
            (identifyLegalDomain p.2))) from rfl]
  revert hchain
  generalize createChunks CHUNK_SIZE CHUNK_OVERLAP (cleanText fullText) = tc
  intro hchain
  refine ⟨?_, ?_, ?_, ?_⟩
  · simp only [List.map_map, List.length_map, List.enum_length]
    have hcomp : ((fun ch : Chunk => ch.metadata.chunk_id) ∘ fun p : Nat × List Char =>
        Chunk.mk p.2 (ChunkMeta.mk sourceName (("txt").data) p.1 tc.length
          (identifyLegalDomain p.2)))
        = (Prod.fst : Nat × List Char → Nat) := funext fun p => rfl
    rw [hcomp, List.enum_map_fst]
  · intro ch hch
    simp only [List.mem_map] at hch
    rcases hch with ⟨p, hp, hfp⟩
    simp only [List.length_map, List.enum_length]
    rw [← hfp]
  · rw [← List.enum_map_snd tc] at hchain
    rw [List.chain'_map] at hchain
    rw [List.chain'_map]
    exact hchain
  · intro ch hch
    rw [List.length_drop]
    omega

/-- C3 witness: a concrete document, with the membership hypothesis of the
`total_chunks` conjunct discharged at the first emitted chunk. -/
theorem c3_chunk_ids_and_overlap_witness :
    ((processTextContent (("abc").data) (("f.txt").data)).map (fun ch => ch.metadata.chunk_id)
        = List.range (processTextContent (("abc").data) (("f.txt").data)).length) ∧
    ((processTextContent (("abc").data) (("f.txt").data)).headI).metadata.total_chunks
        = (processTextContent (("abc").data) (("f.txt").data)).length :=
  ⟨(c3_chunk_ids_and_overlap (("abc").data) (("f.txt").data)).1,
   (c3_chunk_ids_and_overlap (("abc").data) (("f.txt").data)).2.1 _ (by decide)⟩
